import Mathlib

/-!
Verification of the CoQA question-answering data utilities.

We shallowly embed the three source files of the repository:

* `utils/preprocessing.py` — `prepare_train_features_span` (character-span to
  token-span alignment with sliding windows) and
  `prepare_train_features_sequence_to_sequence`;
* `utils/download.py` — `download_data`;
* `utils/eval.py` — `compute_metrics`.

Python machinery is made explicit: fallible list indexing returns
`Except PyErr`, Python's negative-index wraparound is modelled by `pyGet`,
the tokenizer / decoder / external F1 scorer are abstract function
parameters, the filesystem and network of `download.py` are an explicit
`World` state, and the in-place numpy mutation of `compute_metrics` is
modelled by returning the post-call prediction object.
-/

set_option autoImplicit false

namespace CoqaQA

/-- Python runtime faults relevant here: `IndexError` from an out-of-range
list subscript and `ValueError` from a failed `list.index`. -/
inductive PyErr where
  | indexError
  | valueError
  deriving DecidableEq, Repr

instance {ε α : Type} [DecidableEq ε] [DecidableEq α] : DecidableEq (Except ε α)
  | .error e, .error e' =>
    decidable_of_iff (e = e') ⟨fun h => by rw [h], fun h => by cases h; rfl⟩
  | .error _, .ok _ => isFalse fun h => by cases h
  | .ok _, .error _ => isFalse fun h => by cases h
  | .ok a, .ok a' =>
    decidable_of_iff (a = a') ⟨fun h => by rw [h], fun h => by cases h; rfl⟩

/-- Python list subscript `l[i]`: a nonnegative index reads from the front,
a negative index `-k` with `k ≤ len(l)` reads `l[len(l) - k]`, anything else
is an `IndexError` (modelled as `none`). -/
def pyGet {α : Type} (l : List α) (i : Int) : Option α :=
  if 0 ≤ i then l.get? i.toNat
  else if -i ≤ (l.length : Int) then l.get? (l.length - (-i).toNat) else none

/-- Python `list.index(v)` starting from absolute position `k`:
first index holding `v`, `ValueError` when absent. -/
def listIndexFrom : List Nat → Nat → Nat → Except PyErr Nat
  | [], _, _ => .error .valueError
  | x :: xs, v, k => if x = v then .ok k else listIndexFrom xs v (k + 1)

/-- Python `input_ids.index(tokenizer.cls_token_id)`. -/
def listIndex (l : List Nat) (v : Nat) : Except PyErr Nat :=
  listIndexFrom l v 0

/-- The forward scan
`while sequence_ids[token_start_index] != 1: token_start_index += 1`,
walking the list from absolute position `i`; running past the end of the
list is an `IndexError`. -/
def scanFrom : List (Option Nat) → Nat → Except PyErr Nat
  | [], _ => .error .indexError
  | s :: rest, i => if s = some 1 then .ok i else scanFrom rest (i + 1)

/-- The forward scan of `prepare_train_features_span`, started at index 0. -/
def scanForward (seq : List (Option Nat)) : Except PyErr Nat :=
  scanFrom seq 0

/-- Step-counted body of the backward scan
`while sequence_ids[token_end_index] != 1: token_end_index -= 1`.
The index is an `Int` because the Python loop can run below 0, where
subscripts wrap around.  The counter is the exact number of subscript
evaluations the interpreter can still make before the index drops below
`-len(seq)`; at that point Python raises `IndexError`, which is the
counter-exhausted case. -/
def scanBackAux (seq : List (Option Nat)) : Int → Nat → Except PyErr Int
  | _, 0 => .error .indexError
  | i, fuel + 1 =>
    match pyGet seq i with
    | none => .error .indexError
    | some s => if s = some 1 then .ok i else scanBackAux seq (i - 1) fuel

/-- The backward scan of `prepare_train_features_span`, from start index `i`.
`(i + len + 1).toNat` is exactly the number of subscript evaluations until
the index would reach `-len - 1` (Python's `IndexError`), so the counter of
`scanBackAux` never runs out before the fault it encodes. -/
def scanBackward (seq : List (Option Nat)) (i : Int) : Except PyErr Int :=
  scanBackAux seq i (i + (seq.length : Int) + 1).toNat

/-- Step-counted body of the start-narrowing loop
`while token_start_index < len(offsets) and offsets[token_start_index][0] <= start_char:
  token_start_index += 1`.
The loop is bounded by its own length check, so it cannot fault; the
counter-exhausted case (reached exactly when `i ≥ len`, where the guard
fails) exits with the current index like the loop does. -/
def startNarrowAux (offsets : List (Nat × Nat)) (sc : Nat) : Nat → Nat → Nat
  | i, 0 => i
  | i, fuel + 1 =>
    match offsets.get? i with
    | none => i
    | some p => if p.1 ≤ sc then startNarrowAux offsets sc (i + 1) fuel else i

/-- The start-narrowing loop of `prepare_train_features_span`, from index `i`. -/
def startNarrow (offsets : List (Nat × Nat)) (sc : Nat) (i : Nat) : Nat :=
  startNarrowAux offsets sc i (offsets.length - i)

/-- Step-counted body of the end-narrowing loop
`while offsets[token_end_index][1] >= end_char: token_end_index -= 1`.
It has no lower bound check: the index can run below 0 (where Python
subscripts wrap around) and eventually below `-len`, an `IndexError`,
which is the counter-exhausted case. -/
def endNarrowAux (offsets : List (Nat × Nat)) (ec : Nat) : Int → Nat → Except PyErr Int
  | _, 0 => .error .indexError
  | i, fuel + 1 =>
    match pyGet offsets i with
    | none => .error .indexError
    | some p => if ec ≤ p.2 then endNarrowAux offsets ec (i - 1) fuel else .ok i

/-- The end-narrowing loop of `prepare_train_features_span`, from index `i`;
the counter is exhausted exactly at the index where Python would raise. -/
def endNarrow (offsets : List (Nat × Nat)) (ec : Nat) (i : Int) : Except PyErr Int :=
  endNarrowAux offsets ec i (i + (offsets.length : Int) + 1).toNat

/-- One tokenized window (Feature) of `prepare_train_features_span`:
its token ids, its per-token character offsets into the text given to the
tokenizer, and its per-token sequence tags (`none` = special token,
`some 0` = question, `some 1` = context). -/
structure Feature where
  input_ids : List Nat
  offsets : List (Nat × Nat)
  sequence_ids : List (Option Nat)
  deriving DecidableEq, Repr

/-- The body of the per-feature loop of `prepare_train_features_span`
(`preprocessing.py` lines 57–102) for one Feature and the originating
Example's character span `[sc, ec)`:
find the CLS index, locate the context token window by the two scans,
emit the CLS sentinel when the span is not fully inside the window, and
otherwise run the two narrowing loops. -/
def labelFeature (cls_token_id sc ec : Nat) (f : Feature) : Except PyErr (Int × Int) :=
  match listIndex f.input_ids cls_token_id with
  | .error e => .error e
  | .ok cls_index =>
    match scanForward f.sequence_ids with
    | .error e => .error e
    | .ok token_start_index =>
      match scanBackward f.sequence_ids ((f.input_ids.length : Int) - 1) with
      | .error e => .error e
      | .ok token_end_index =>
        match f.offsets.get? token_start_index with
        | none => .error .indexError
        | some oS =>
          if sc < oS.1 then .ok ((cls_index : Int), (cls_index : Int))
          else
            match pyGet f.offsets token_end_index with
            | none => .error .indexError
            | some oE =>
              if oE.2 < ec then .ok ((cls_index : Int), (cls_index : Int))
              else
                match endNarrow f.offsets ec token_end_index with
                | .error e => .error e
                | .ok j =>
                  .ok (((startNarrow f.offsets sc token_start_index : Nat) : Int) - 1, j + 1)

/-- Token range check used to state coverage facts: the pair `(sp, ep)`
covers the character span `[sc, ec)` when both token indices resolve in
`offsets`, `sp ≤ ep`, the `sp` token starts at or before `sc` and the `ep`
token ends at or after `ec`. -/
def coversSpanB (f : Feature) (sp ep : Int) (sc ec : Nat) : Bool :=
  match pyGet f.offsets sp, pyGet f.offsets ep with
  | some pS, some pE => decide (sp ≤ ep) && decide (pS.1 ≤ sc) && decide (ec ≤ pE.2)
  | _, _ => false

/-- Python `str.lstrip()`: drop leading whitespace. -/
def lstrip (s : String) : String :=
  String.mk (s.data.dropWhile Char.isWhitespace)

/-- Substring of `s` on the character interval `[a, b)`. -/
def sliceStr (s : String) (a b : Nat) : String :=
  String.mk ((s.data.take b).drop a)

/-- The Example batch consumed by `prepare_train_features_span`:
parallel per-Example fields `question`, `story`, `span_start`, `span_end`. -/
structure SpanExamples where
  question : List String
  story : List String
  span_start : List Nat
  span_end : List Nat

/-- What the tokenizer call of `prepare_train_features_span` returns:
per-Feature `input_ids`, `offset_mapping`, `sequence_ids` and the
Feature-to-Example back map `overflow_to_sample_mapping`. -/
structure SpanTokenized where
  input_ids : List (List Nat)
  offset_mapping : List (List (Nat × Nat))
  sequence_ids : List (List (Option Nat))
  overflow_to_sample_mapping : List Nat

/-- Python list subscript by a nonnegative index, as `Except`. -/
def exGet {α : Type} (l : List α) (i : Nat) : Except PyErr α :=
  match l.get? i with
  | some x => .ok x
  | none => .error .indexError

/-- The `for i, offsets in enumerate(offset_mapping)` loop of
`prepare_train_features_span`: for each Feature, fetch its `input_ids` and
`sequence_ids`, map it back to its Example through
`overflow_to_sample_mapping`, read that Example's `span_start`/`span_end`,
and label the Feature; a Python exception aborts the whole batch. -/
def spanLoop (cls_token_id : Nat) (span_start span_end : List Nat)
    (tb : SpanTokenized) : List (List (Nat × Nat)) → Nat → Except PyErr (List (Int × Int))
  | [], _ => .ok []
  | offsets :: rest, i => do
    let input_ids ← exGet tb.input_ids i
    let seq ← exGet tb.sequence_ids i
    let sample_index ← exGet tb.overflow_to_sample_mapping i
    let start_char ← exGet span_start sample_index
    let end_char ← exGet span_end sample_index
    let lab ← labelFeature cls_token_id start_char end_char
      { input_ids := input_ids, offsets := offsets, sequence_ids := seq }
    let rest' ← spanLoop cls_token_id span_start span_end tb rest (i + 1)
    pure (lab :: rest')

/-- `prepare_train_features_span` over a batch: left-strip the questions and
stories, tokenize (the tokenizer is an abstract parameter), then label every
Feature; returns the per-Feature `(start_positions, end_positions)` pairs. -/
def prepare_train_features_span (tok : List String → List String → SpanTokenized)
    (cls_token_id : Nat) (examples : SpanExamples) : Except PyErr (List (Int × Int)) :=
  let question := examples.question.map lstrip
  let story := examples.story.map lstrip
  let tokenized_examples := tok question story
  spanLoop cls_token_id examples.span_start examples.span_end tokenized_examples
    tokenized_examples.offset_mapping 0

/-- What a tokenizer call of the sequence-to-sequence builder returns. -/
structure TokOut where
  input_ids : List (List Int)
  attention_mask : List (List Int)

/-- The Example batch consumed by
`prepare_train_features_sequence_to_sequence`. -/
structure S2SExamples where
  question : List String
  story : List String
  answer : List String

/-- The fields `prepare_train_features_sequence_to_sequence` adds to the
batch. -/
structure S2SResult where
  input_ids : List (List Int)
  attention_mask : List (List Int)
  decoder_input_ids : List (List Int)
  decoder_attention_mask : List (List Int)
  labels : List (List Int)

/-- `prepare_train_features_sequence_to_sequence`: left-strip question,
story and answer, tokenize question+story (encoder) and answer (decoder)
through the abstract tokenizer parameters, and build `labels` from the
decoder ids with every `pad_token_id` replaced by the loss-ignore marker
`-100`. -/
def prepare_train_features_sequence_to_sequence
    (tokPair : List String → List String → TokOut)
    (tokAnswer : List String → TokOut)
    (pad_token_id : Int) (examples : S2SExamples) : S2SResult :=
  let question := examples.question.map lstrip
  let story := examples.story.map lstrip
  let answer := examples.answer.map lstrip
  let tokenized_inputs := tokPair question story
  let tokenized_outputs := tokAnswer answer
  { input_ids := tokenized_inputs.input_ids
    attention_mask := tokenized_inputs.attention_mask
    decoder_input_ids := tokenized_outputs.input_ids
    decoder_attention_mask := tokenized_outputs.attention_mask
    labels := tokenized_outputs.input_ids.map
      (fun labels => labels.map (fun token => if token = pad_token_id then -100 else token)) }

/-- The world `download.py` acts on: a set of directories, files with
contents, and the network as a pure oracle from a URL to the fetched
bytes. -/
structure World where
  dirs : List String
  files : List (String × String)
  net : String → String

/-- First file entry for a path. -/
def lookupFile : List (String × String) → String → Option String
  | [], _ => none
  | (q, c) :: rest, p => if q = p then some c else lookupFile rest p

/-- `os.path.exists`: true when the path names a file or a directory. -/
def osPathExists (w : World) (p : String) : Bool :=
  (lookupFile w.files p).isSome || decide (p ∈ w.dirs)

/-- `os.path.join` for one component. -/
def os_path_join (a b : String) : String :=
  if a = "" then b
  else if a.data.getLast? = some (Char.ofNat 47) then a ++ b
  else a ++ "/" ++ b

/-- `os.makedirs`: record the directory. -/
def os_makedirs (w : World) (d : String) : World :=
  { w with dirs := d :: w.dirs }

/-- `download_url(url, output_path)`: one network transfer writing the
fetched bytes to `output_path`; the second component counts the
transfer. -/
def download_url (w : World) (url output_path : String) : World × Nat :=
  ({ w with files := (output_path, w.net url) :: w.files }, 1)

/-- `download_data(data_path, url_path, suffix)`: create `data_path` when it
does not exist, then fetch `url_path` into `<data_path>/<suffix>.json`
unless that path already exists.  The second component counts the network
transfers performed (`download_url` calls). -/
def download_data (w : World) (data_path url_path suffix : String) : World × Nat :=
  let w1 := if osPathExists w data_path then w else os_makedirs w data_path
  let p := os_path_join data_path (suffix ++ ".json")
  if osPathExists w1 p then (w1, 0)
  else download_url w1 url_path p

/-- An empty filesystem whose network returns a fixed payload. -/
def wDemo : World :=
  { dirs := [], files := [], net := fun _ => "payload" }

/-- The prediction object consumed by `compute_metrics`: integer token-id
rows `label_ids` and `predictions`. -/
structure Pred where
  label_ids : List (List Int)
  predictions : List (List Int)

/-- The numpy masked assignment `labels_ids[labels_ids == -100] = pad`:
every `-100` entry becomes `pad_token_id`, elementwise. -/
def maskIgnore (pad_token_id : Int) (rows : List (List Int)) : List (List Int) :=
  rows.map (fun row => row.map (fun t => if t = -100 then pad_token_id else t))

/-- `compute_metrics(pred, tokenizer)`: decode the predictions, overwrite
the `-100` markers of `pred.label_ids` with the padding id (numpy does this
in place, modelled here by also returning the post-call `Pred`), decode the
labels, and hand both string lists to the external F1 scorer.
`batch_decode` stands for `tokenizer.batch_decode(..., skip_special_tokens
= True)` applied to one row; `compute_f1` is the external
`allennlp` scorer, out of scope of this repository. -/
def compute_metrics {α : Type} (batch_decode : List Int → String)
    (compute_f1 : List String → List String → α)
    (pad_token_id : Int) (pred : Pred) : α × Pred :=
  let labels_ids := pred.label_ids
  let pred_ids := pred.predictions
  let pred_str := pred_ids.map batch_decode
  let labels_ids := maskIgnore pad_token_id labels_ids
  let label_str := labels_ids.map batch_decode
  (compute_f1 pred_str label_str, { pred with label_ids := labels_ids })

/-! ### Concrete features used by witnesses and counterexamples -/

/-- A realistic padded window `[CLS] q [SEP] c1 c2 [SEP] [PAD] [PAD]` whose
answer `[5, 6)` starts inside the last context token `(4, 7)`: the
start-narrowing loop then runs past the context through the `(0, 0)`
specials and padding to the end of the feature. -/
def cexFeatC1 : Feature :=
  { input_ids := [101, 7, 102, 11, 12, 102, 0, 0]
    offsets := [(0, 0), (0, 1), (0, 0), (0, 3), (4, 7), (0, 0), (0, 0), (0, 0)]
    sequence_ids := [none, some 0, none, some 1, some 1, none, none, none] }

/-- A window `[CLS] q [SEP] c1 c2 c3 [SEP] [PAD]` with the answer `[4, 7)`
inside the middle context token. -/
def wFeatC1 : Feature :=
  { input_ids := [101, 7, 102, 11, 12, 13, 102, 0]
    offsets := [(0, 0), (0, 1), (0, 0), (0, 3), (4, 7), (8, 11), (0, 0), (0, 0)]
    sequence_ids := [none, some 0, none, some 1, some 1, some 1, none, none] }

/-- Character offsets of `wFeatC1` as a total function. -/
def offwC1 (k : Nat) : Nat × Nat :=
  (wFeatC1.offsets.get? k).getD (0, 0)

/-- A window `[CLS] q [SEP] c1 c2 [SEP]` whose context covers characters
`[0, 7)`; the answer `[8, 9)` lies beyond it. -/
def wFeatC2 : Feature :=
  { input_ids := [101, 7, 102, 11, 12, 102]
    offsets := [(0, 0), (0, 1), (0, 0), (0, 3), (4, 7), (0, 0)]
    sequence_ids := [none, some 0, none, some 1, some 1, none] }

/-- Character offsets of `wFeatC2` as a total function. -/
def offwC2 (k : Nat) : Nat × Nat :=
  (wFeatC2.offsets.get? k).getD (0, 0)

/-- A window `[CLS] q [SEP] c1 c2 [SEP] [PAD]` with a two-token context
covering exactly `[0, 7)`. -/
def wFeatC4 : Feature :=
  { input_ids := [101, 7, 102, 11, 12, 102, 0]
    offsets := [(0, 0), (0, 1), (0, 0), (0, 3), (4, 7), (0, 0), (0, 0)]
    sequence_ids := [none, some 0, none, some 1, some 1, none, none] }

/-- Character offsets of `wFeatC4` as a total function. -/
def offwC4 (k : Nat) : Nat × Nat :=
  (wFeatC4.offsets.get? k).getD (0, 0)

/-- A window whose context is one single token `(0, 3)`; the answer
`[0, 3)` spans exactly the whole window. -/
def cexFeatC4 : Feature :=
  { input_ids := [101, 7, 102, 11, 102, 0]
    offsets := [(0, 0), (0, 1), (0, 0), (0, 3), (0, 0), (0, 0)]
    sequence_ids := [none, some 0, none, some 1, none, none] }

/-- A feature whose `input_ids` lack the classification token id 101. -/
def wFeatC3 : Feature :=
  { input_ids := [5, 6, 7]
    offsets := [(0, 1), (2, 3), (4, 5)]
    sequence_ids := [some 0, some 1, some 1] }

/-- A feature with no context tokens at all (no tag `some 1`). -/
def wFeatC8 : Feature :=
  { input_ids := [101, 5]
    offsets := [(0, 0), (0, 1)]
    sequence_ids := [none, some 0] }

/-- The tokenization, with one Feature, of question `"q"` and the
left-stripped story `"x y"`: tokens `[CLS] q [SEP] x y [SEP]`, context
offsets `(0,1)` and `(2,3)` into the stripped story. -/
def demoBatch : SpanTokenized :=
  { input_ids := [[101, 5, 102, 11, 12, 102]]
    offset_mapping := [[(0, 0), (0, 1), (0, 0), (0, 1), (2, 3), (0, 0)]]
    sequence_ids := [[none, some 0, none, some 1, some 1, none]]
    overflow_to_sample_mapping := [0] }

/-- A concrete tokenizer: it recognizes the stripped story `"x y"` and
returns `demoBatch`, anything else gets an empty tokenization. -/
def demoTok (_qs ss : List String) : SpanTokenized :=
  if ss = ["x y"] then demoBatch
  else { input_ids := [], offset_mapping := [], sequence_ids := [],
         overflow_to_sample_mapping := [] }

/-- One Example whose story carries one leading space; its span `[1, 2)`
denotes the character `"x"` of the original story. -/
def demoEx : SpanExamples :=
  { question := ["q"], story := [" x y"], span_start := [1], span_end := [2] }

/-! ### Characterizations of the loop primitives -/

lemma pyGet_natCast {α : Type} (l : List α) (n : Nat) : pyGet l (n : Int) = l.get? n := by
  simp [pyGet]

lemma listIndexFrom_mem (v : Nat) :
    ∀ (l : List Nat) (k : Nat), v ∈ l → ∃ j, listIndexFrom l v k = .ok j := by
  intro l
  induction l with
  | nil => intro k h; cases h
  | cons x xs ih =>
    intro k h
    by_cases hx : x = v
    · exact ⟨k, by simp [listIndexFrom, hx]⟩
    · have hm : v ∈ xs := by
        cases h with
        | head => exact absurd rfl hx
        | tail _ h' => exact h'
      obtain ⟨j, hj⟩ := ih (k + 1) hm
      exact ⟨j, by simp [listIndexFrom, hx, hj]⟩

lemma listIndex_mem (l : List Nat) (v : Nat) (h : v ∈ l) :
    ∃ j, listIndex l v = .ok j :=
  listIndexFrom_mem v l 0 h

lemma listIndexFrom_not_mem (v : Nat) :
    ∀ (l : List Nat) (k : Nat), v ∉ l → listIndexFrom l v k = .error .valueError := by
  intro l
  induction l with
  | nil => intro k _; rfl
  | cons x xs ih =>
    intro k h
    have hx : ¬ x = v := fun he => h (he ▸ List.mem_cons_self x xs)
    have hm : v ∉ xs := fun hc => h (List.mem_cons_of_mem x hc)
    simp [listIndexFrom, hx, ih (k + 1) hm]

lemma listIndex_not_mem (l : List Nat) (v : Nat) (h : v ∉ l) :
    listIndex l v = .error .valueError :=
  listIndexFrom_not_mem v l 0 h

lemma scanFrom_ok :
    ∀ (seq : List (Option Nat)) (d i : Nat), seq.get? d = some (some 1) →
      (∀ k, k < d → seq.get? k ≠ some (some 1)) →
      scanFrom seq i = .ok (i + d) := by
  intro seq
  induction seq with
  | nil => intro d i hd _; simp [List.get?] at hd
  | cons s rest ih =>
    intro d i hd hbefore
    by_cases hs : s = some 1
    · have hd0 : d = 0 := by
        by_contra hne
        exact hbefore 0 (Nat.pos_of_ne_zero hne) (by simp [List.get?, hs])
      subst hd0
      simp [scanFrom, hs]
    · cases d with
      | zero => simp [List.get?] at hd; exact absurd hd hs
      | succ d' =>
        have hd' : rest.get? d' = some (some 1) := hd
        have hb' : ∀ k, k < d' → rest.get? k ≠ some (some 1) := by
          intro k hk
          exact hbefore (k + 1) (by omega)
        have hrec := ih d' (i + 1) hd' hb'
        have h2 : i + (d' + 1) = i + 1 + d' := by omega
        rw [h2]
        simp [scanFrom, hs, hrec]

lemma scanFrom_err :
    ∀ (seq : List (Option Nat)) (i : Nat), (∀ s ∈ seq, s ≠ some 1) →
      scanFrom seq i = .error .indexError := by
  intro seq
  induction seq with
  | nil => intro i _; rfl
  | cons s rest ih =>
    intro i h
    have hs : ¬ s = some 1 := h s (List.mem_cons_self s rest)
    have hr := ih (i + 1) (fun x hx => h x (List.mem_cons_of_mem s hx))
    simp [scanFrom, hs, hr]

lemma pyGet_bounds {α : Type} {l : List α} {i : Int} {a : α}
    (h : pyGet l i = some a) : -(l.length : Int) ≤ i ∧ i < (l.length : Int) := by
  unfold pyGet at h
  by_cases h0 : 0 ≤ i
  · rw [if_pos h0] at h
    have hlt : i.toNat < l.length := by
      by_contra hcon
      push_neg at hcon
      rw [List.get?_eq_none.mpr hcon] at h
      exact Option.noConfusion h
    omega
  · rw [if_neg h0] at h
    by_cases h1 : -i ≤ (l.length : Int)
    · omega
    · rw [if_neg h1] at h
      exact Option.noConfusion h

lemma scanBackAux_ok (seq : List (Option Nat)) (t : Nat)
    (ht : seq.get? t = some (some 1)) :
    ∀ (n : Nat) (i : Int) (fuel : Nat), i = (t : Int) + n →
      (fuel : Int) = i + seq.length + 1 →
      (∀ k : Int, (t : Int) < k → k ≤ i → ∃ s, pyGet seq k = some s ∧ s ≠ some 1) →
      scanBackAux seq i fuel = .ok t := by
  intro n
  induction n with
  | zero =>
    intro i fuel hi hfuel _
    have hit : i = (t : Int) := by omega
    subst hit
    obtain ⟨fuel', rfl⟩ : ∃ f, fuel = f + 1 := ⟨fuel - 1, by omega⟩
    have hpy : pyGet seq ((t : Nat) : Int) = some (some 1) := by
      rw [pyGet_natCast]
      exact ht
    simp [scanBackAux, hpy]
  | succ n ih =>
    intro i fuel hi hfuel hbet
    obtain ⟨s, hs, hne⟩ := hbet i (by omega) le_rfl
    obtain ⟨fuel', rfl⟩ : ∃ f, fuel = f + 1 := ⟨fuel - 1, by omega⟩
    simp only [scanBackAux, hs]
    rw [if_neg hne]
    exact ih (i - 1) fuel' (by omega) (by omega) (fun k h1 h2 => hbet k h1 (by omega))

lemma scanBackward_eq_ok (seq : List (Option Nat)) (t : Nat)
    (ht : seq.get? t = some (some 1)) :
    ∀ (n : Nat) (i : Int), i = (t : Int) + n →
      (∀ k : Int, (t : Int) < k → k ≤ i → ∃ s, pyGet seq k = some s ∧ s ≠ some 1) →
      scanBackward seq i = .ok t := by
  intro n i hi hbet
  unfold scanBackward
  exact scanBackAux_ok seq t ht n i (i + (seq.length : Int) + 1).toNat hi (by omega) hbet

lemma startNarrowAux_eq (offsets : List (Nat × Nat)) (sc : Nat) :
    ∀ (n i m fuel : Nat), m = i + n → fuel = offsets.length - i →
      (∀ k, i ≤ k → k < m → ∃ p, offsets.get? k = some p ∧ p.1 ≤ sc) →
      (∃ q, offsets.get? m = some q ∧ sc < q.1) →
      startNarrowAux offsets sc i fuel = m := by
  intro n
  induction n with
  | zero =>
    intro i m fuel hm hfuel _ hq
    obtain ⟨q, hq1, hq2⟩ := hq
    have him : i = m := by omega
    subst him
    have hlen : i < offsets.length := by
      by_contra hcon
      push_neg at hcon
      rw [List.get?_eq_none.mpr hcon] at hq1
      exact Option.noConfusion hq1
    obtain ⟨fuel', rfl⟩ : ∃ f, fuel = f + 1 := ⟨fuel - 1, by omega⟩
    simp only [startNarrowAux, hq1]
    rw [if_neg (by omega)]
  | succ n ih =>
    intro i m fuel hm hfuel hpass hq
    obtain ⟨p, hp1, hp2⟩ := hpass i le_rfl (by omega)
    have hlen : i < offsets.length := by
      by_contra hcon
      push_neg at hcon
      rw [List.get?_eq_none.mpr hcon] at hp1
      exact Option.noConfusion hp1
    obtain ⟨fuel', rfl⟩ : ∃ f, fuel = f + 1 := ⟨fuel - 1, by omega⟩
    simp only [startNarrowAux, hp1]
    rw [if_pos hp2]
    exact ih (i + 1) m fuel' (by omega) (by omega)
      (fun k hk1 hk2 => hpass k (by omega) hk2) hq

lemma startNarrow_eq (offsets : List (Nat × Nat)) (sc : Nat) :
    ∀ (n i m : Nat), m = i + n →
      (∀ k, i ≤ k → k < m → ∃ p, offsets.get? k = some p ∧ p.1 ≤ sc) →
      (∃ q, offsets.get? m = some q ∧ sc < q.1) →
      startNarrow offsets sc i = m := by
  intro n i m hm hpass hq
  unfold startNarrow
  exact startNarrowAux_eq offsets sc n i m (offsets.length - i) hm rfl hpass hq

lemma endNarrowAux_ok (offsets : List (Nat × Nat)) (ec : Nat) (j : Int) (pj : Nat × Nat)
    (hj : pyGet offsets j = some pj) (hjlt : pj.2 < ec) :
    ∀ (n : Nat) (i : Int) (fuel : Nat), i = j + n →
      (fuel : Int) = i + offsets.length + 1 →
      (∀ k : Int, j < k → k ≤ i → ∃ p, pyGet offsets k = some p ∧ ec ≤ p.2) →
      endNarrowAux offsets ec i fuel = .ok j := by
  intro n
  induction n with
  | zero =>
    intro i fuel hi hfuel _
    have hij : i = j := by omega
    subst hij
    have hb := pyGet_bounds hj
    obtain ⟨fuel', rfl⟩ : ∃ f, fuel = f + 1 := ⟨fuel - 1, by omega⟩
    simp only [endNarrowAux, hj]
    rw [if_neg (by omega)]
  | succ n ih =>
    intro i fuel hi hfuel hbet
    obtain ⟨p, hp, hple⟩ := hbet i (by omega) le_rfl
    have hb := pyGet_bounds hp
    obtain ⟨fuel', rfl⟩ : ∃ f, fuel = f + 1 := ⟨fuel - 1, by omega⟩
    simp only [endNarrowAux, hp]
    rw [if_pos hple]
    exact ih (i - 1) fuel' (by omega) (by omega) (fun k h1 h2 => hbet k h1 (by omega))

lemma endNarrow_eq_ok (offsets : List (Nat × Nat)) (ec : Nat) (j : Int) (pj : Nat × Nat)
    (hj : pyGet offsets j = some pj) (hjlt : pj.2 < ec) :
    ∀ (n : Nat) (i : Int), i = j + n →
      (∀ k : Int, j < k → k ≤ i → ∃ p, pyGet offsets k = some p ∧ ec ≤ p.2) →
      endNarrow offsets ec i = .ok j := by
  intro n i hi hbet
  unfold endNarrow
  have hb := pyGet_bounds hj
  exact endNarrowAux_ok offsets ec j pj hj hjlt n i (i + (offsets.length : Int) + 1).toNat
    hi (by omega) hbet


/-- Stepping `labelFeature` through the in-window branch: for a Feature whose
context window is the contiguous index block `[tsi, tei]`, whose `offsets`
read back through the function `off`, and whose two narrowing loops stop at
`sp + 1` (start side) and `ep - 1` (end side), the produced label pair is
`(sp, ep)`. -/
lemma labelFeature_narrow_eq
    (f : Feature) (cls sc ec L tsi tei sp ep : Nat) (off : Nat → Nat × Nat)
    (h1 : f.input_ids.length = L) (h2 : f.sequence_ids.length = L)
    (h3 : f.offsets.length = L)
    (hcls : cls ∈ f.input_ids)
    (htei : tei < L) (hts : tsi ≤ tei)
    (hctx : ∀ k, k < L → (f.sequence_ids.get? k = some (some 1) ↔ (tsi ≤ k ∧ k ≤ tei)))
    (hoff : ∀ k, k < L → f.offsets.get? k = some (off k))
    (hsp1 : tsi ≤ sp) (hsp2 : sp + 1 ≤ tei)
    (hsA : ∀ k, tsi ≤ k → k ≤ sp → (off k).1 ≤ sc)
    (hsStop : sc < (off (sp + 1)).1)
    (hep1 : tsi ≤ ep) (hep2 : ep ≤ tei)
    (heA : ∀ k, ep ≤ k → k ≤ tei → ec ≤ (off k).2)
    (heStop : ∃ p, pyGet f.offsets ((ep : Int) - 1) = some p ∧ p.2 < ec) :
    labelFeature cls sc ec f = .ok ((sp : Int), (ep : Int)) := by
  obtain ⟨ci, hci⟩ := listIndex_mem _ _ hcls
  have htsiL : tsi < L := by omega
  have hfw : scanForward f.sequence_ids = .ok tsi := by
    have hd : f.sequence_ids.get? tsi = some (some 1) := (hctx tsi htsiL).mpr ⟨le_rfl, hts⟩
    have hb : ∀ k, k < tsi → f.sequence_ids.get? k ≠ some (some 1) := by
      intro k hk hkc
      have := (hctx k (by omega)).mp hkc
      omega
    have := scanFrom_ok f.sequence_ids tsi 0 hd hb
    simpa [scanForward] using this
  have hbw : scanBackward f.sequence_ids ((f.input_ids.length : Int) - 1) = .ok (tei : Int) := by
    rw [h1]
    have hd : f.sequence_ids.get? tei = some (some 1) := (hctx tei htei).mpr ⟨hts, le_rfl⟩
    apply scanBackward_eq_ok f.sequence_ids tei hd (L - 1 - tei) ((L : Int) - 1) (by omega)
    intro k hk1 hk2
    have hkL : k.toNat < L := by omega
    obtain ⟨s, hs⟩ : ∃ s, f.sequence_ids.get? k.toNat = some s := by
      rcases hg : f.sequence_ids.get? k.toNat with _ | s
      · rw [List.get?_eq_none] at hg; omega
      · exact ⟨s, rfl⟩
    refine ⟨s, ?_, ?_⟩
    · rw [show k = (k.toNat : Int) by omega, pyGet_natCast]
      exact hs
    · intro hs1
      have := (hctx k.toNat hkL).mp (hs1 ▸ hs)
      omega
  have hOS : f.offsets.get? tsi = some (off tsi) := hoff tsi htsiL
  have hOE : pyGet f.offsets ((tei : Nat) : Int) = some (off tei) := by
    rw [pyGet_natCast]
    exact hoff tei htei
  have hwS : (off tsi).1 ≤ sc := hsA tsi le_rfl hsp1
  have hwE : ec ≤ (off tei).2 := heA tei hep2 le_rfl
  have hsn : startNarrow f.offsets sc tsi = sp + 1 := by
    apply startNarrow_eq f.offsets sc (sp + 1 - tsi) tsi (sp + 1) (by omega)
    · intro k hk1 hk2
      exact ⟨off k, hoff k (by omega), hsA k hk1 (by omega)⟩
    · exact ⟨off (sp + 1), hoff (sp + 1) (by omega), hsStop⟩
  obtain ⟨pprev, hpprev, hpprevlt⟩ := heStop
  have hen : endNarrow f.offsets ec ((tei : Nat) : Int) = .ok ((ep : Int) - 1) := by
    apply endNarrow_eq_ok f.offsets ec ((ep : Int) - 1) pprev hpprev hpprevlt
      (tei + 1 - ep) ((tei : Nat) : Int) (by omega)
    intro k hk1 hk2
    have hke : ep ≤ k.toNat := by omega
    have hkt : k.toNat ≤ tei := by omega
    refine ⟨off k.toNat, ?_, heA k.toNat hke hkt⟩
    rw [show k = (k.toNat : Int) by omega, pyGet_natCast]
    exact hoff k.toNat (by omega)
  have hif1 : ¬ sc < (off tsi).1 := by omega
  have hif2 : ¬ (off tei).2 < ec := by omega
  simp only [labelFeature, hci, hfw, hbw, hOS, hOE, hen, hsn, hif1, hif2, if_false]
  simp only [Except.ok.injEq, Prod.mk.injEq]
  omega

/-- C1 (amended). For a Feature whose context token window `[tsi, tei]`
fully contains the answer span `[sc, ec)`, and additionally
(i) token char-starts and char-ends are monotone over the window,
(ii) `sc` lies strictly before the last context token's char-start (so the
start-narrowing loop stops inside the window), and
(iii) when every context token's char-end reaches `ec`, the token preceding
the window ends before `ec` (so the end-narrowing loop stops on it):
`labelFeature` returns `(start_position, end_position)` where
`start_position` is the last context-token index whose char-start is `≤ sc`
and `end_position` is the first context-token index whose char-end is `≥ ec`
— the minimal token range whose character coverage contains the span.
Without hypothesis (ii) the unamended claim is false, see
`labelFeature_last_word_overrun`. -/
theorem labelFeature_minimal_range
    (f : Feature) (cls sc ec L tsi tei : Nat) (off : Nat → Nat × Nat)
    (h1 : f.input_ids.length = L) (h2 : f.sequence_ids.length = L)
    (h3 : f.offsets.length = L)
    (hcls : cls ∈ f.input_ids)
    (htei : tei < L) (hts : tsi ≤ tei)
    (hctx : ∀ k, k < L → (f.sequence_ids.get? k = some (some 1) ↔ (tsi ≤ k ∧ k ≤ tei)))
    (hoff : ∀ k, k < L → f.offsets.get? k = some (off k))
    (hmS : ∀ i, i < L → ∀ j, j < L → tsi ≤ i → i ≤ j → j ≤ tei → (off i).1 ≤ (off j).1)
    (hmE : ∀ i, i < L → ∀ j, j < L → tsi ≤ i → i ≤ j → j ≤ tei → (off i).2 ≤ (off j).2)
    (hwS : (off tsi).1 ≤ sc) (hwE : ec ≤ (off tei).2)
    (hstrict : sc < (off tei).1)
    (hprev : ec ≤ (off tsi).2 → ∃ p, pyGet f.offsets ((tsi : Int) - 1) = some p ∧ p.2 < ec) :
    ∃ sp ep : Nat,
      labelFeature cls sc ec f = .ok ((sp : Int), (ep : Int)) ∧
      tsi ≤ sp ∧ sp ≤ tei ∧ (off sp).1 ≤ sc ∧
      (∀ k, tsi ≤ k → k ≤ tei → (off k).1 ≤ sc → k ≤ sp) ∧
      tsi ≤ ep ∧ ep ≤ tei ∧ ec ≤ (off ep).2 ∧
      (∀ k, tsi ≤ k → k ≤ tei → ec ≤ (off k).2 → ep ≤ k) := by
  have hPex : ∃ m, tsi ≤ m ∧ sc < (off m).1 := ⟨tei, hts, hstrict⟩
  have hQex : ∃ e, tsi ≤ e ∧ ec ≤ (off e).2 := ⟨tei, hts, hwE⟩
  have hPm := Nat.find_spec hPex
  have hmle : Nat.find hPex ≤ tei := Nat.find_min' hPex ⟨hts, hstrict⟩
  have hmgt : tsi < Nat.find hPex := by
    rcases Nat.lt_or_ge tsi (Nat.find hPex) with h | h
    · exact h
    · have heq : Nat.find hPex = tsi := by omega
      rw [heq] at hPm
      omega
  have hnotP : ∀ k, k < Nat.find hPex → ¬ (tsi ≤ k ∧ sc < (off k).1) :=
    fun k hk => Nat.find_min hPex hk
  have hQe := Nat.find_spec hQex
  have he0le : Nat.find hQex ≤ tei := Nat.find_min' hQex ⟨hts, hwE⟩
  have hnotQ : ∀ k, k < Nat.find hQex → ¬ (tsi ≤ k ∧ ec ≤ (off k).2) :=
    fun k hk => Nat.find_min hQex hk
  refine ⟨Nat.find hPex - 1, Nat.find hQex, ?_, by omega, by omega, ?_, ?_, hQe.1, he0le,
    hQe.2, ?_⟩
  · apply labelFeature_narrow_eq f cls sc ec L tsi tei (Nat.find hPex - 1) (Nat.find hQex)
      off h1 h2 h3 hcls htei hts hctx hoff (by omega) (by omega)
    · intro k hk1 hk2
      have hnp := hnotP k (by omega)
      omega
    · rw [show Nat.find hPex - 1 + 1 = Nat.find hPex by omega]
      exact hPm.2
    · exact hQe.1
    · exact he0le
    · intro k hk1 hk2
      have hmono := hmE (Nat.find hQex) (by omega) k (by omega) hQe.1 hk1 hk2
      omega
    · by_cases he : Nat.find hQex = tsi
      · rw [he]
        exact hprev (he ▸ hQe.2)
      · have hgt : tsi < Nat.find hQex := by
          have := hQe.1
          omega
        refine ⟨off (Nat.find hQex - 1), ?_, ?_⟩
        · rw [show ((Nat.find hQex : Nat) : Int) - 1 = ((Nat.find hQex - 1 : Nat) : Int) by
            omega, pyGet_natCast]
          exact hoff (Nat.find hQex - 1) (by omega)
        · have hnq := hnotQ (Nat.find hQex - 1) (by omega)
          omega
  · have hnp := hnotP (Nat.find hPex - 1) (by omega)
    omega
  · intro k hk1 hk2 hk3
    by_contra hcon
    push_neg at hcon
    have hmono := hmS (Nat.find hPex) (by omega) k (by omega) (by omega) (by omega) hk2
    omega
  · intro k hk1 hk2 hk3
    exact Nat.find_min' hQex ⟨hk1, hk3⟩

lemma listIndexFrom_ok_mem (v : Nat) :
    ∀ (l : List Nat) (k j : Nat), listIndexFrom l v k = .ok j → v ∈ l := by
  intro l
  induction l with
  | nil => intro k j h; exact Except.noConfusion h
  | cons x xs ih =>
    intro k j h
    by_cases hx : x = v
    · exact hx ▸ List.mem_cons_self x xs
    · simp only [listIndexFrom] at h
      rw [if_neg hx] at h
      exact List.mem_cons_of_mem x (ih (k + 1) j h)

lemma listIndex_ok_mem (l : List Nat) (v j : Nat) (h : listIndex l v = .ok j) : v ∈ l :=
  listIndexFrom_ok_mem v l 0 j h

lemma ctx_scanForward (f : Feature) (L tsi tei : Nat)
    (h2 : f.sequence_ids.length = L) (htei : tei < L) (hts : tsi ≤ tei)
    (hctx : ∀ k, k < L → (f.sequence_ids.get? k = some (some 1) ↔ (tsi ≤ k ∧ k ≤ tei))) :
    scanForward f.sequence_ids = .ok tsi := by
  have hd : f.sequence_ids.get? tsi = some (some 1) := (hctx tsi (by omega)).mpr ⟨le_rfl, hts⟩
  have hb : ∀ k, k < tsi → f.sequence_ids.get? k ≠ some (some 1) := by
    intro k hk hkc
    have := (hctx k (by omega)).mp hkc
    omega
  have := scanFrom_ok f.sequence_ids tsi 0 hd hb
  simpa [scanForward] using this

lemma ctx_scanBackward (f : Feature) (L tsi tei : Nat)
    (h1 : f.input_ids.length = L) (h2 : f.sequence_ids.length = L)
    (htei : tei < L) (hts : tsi ≤ tei)
    (hctx : ∀ k, k < L → (f.sequence_ids.get? k = some (some 1) ↔ (tsi ≤ k ∧ k ≤ tei))) :
    scanBackward f.sequence_ids ((f.input_ids.length : Int) - 1) = .ok ((tei : Nat) : Int) := by
  rw [h1]
  have hd : f.sequence_ids.get? tei = some (some 1) := (hctx tei htei).mpr ⟨hts, le_rfl⟩
  apply scanBackward_eq_ok f.sequence_ids tei hd (L - 1 - tei) ((L : Int) - 1) (by omega)
  intro k hk1 hk2
  have hkL : k.toNat < L := by omega
  obtain ⟨s, hs⟩ : ∃ s, f.sequence_ids.get? k.toNat = some s := by
    rcases hg : f.sequence_ids.get? k.toNat with _ | s
    · rw [List.get?_eq_none] at hg; omega
    · exact ⟨s, rfl⟩
  refine ⟨s, ?_, ?_⟩
  · rw [show k = (k.toNat : Int) by omega, pyGet_natCast]
    exact hs
  · intro hs1
    have := (hctx k.toNat hkL).mp (hs1 ▸ hs)
    omega

/-- C1, counterexample to the unamended claim.  `cexFeatC1` is the padded
window `[CLS] q [SEP] c1 c2 [SEP] [PAD] [PAD]` with context tokens at
indices 3 and 4 covering characters `(0,3)` and `(4,7)`.  The answer span
`[5, 6)` is fully inside the window (`0 ≤ 5` and `7 ≥ 6`), the last (and
only) context-token index whose char-start is `≤ 5` is 4, and the minimal
covering token range is `(4, 4)` — but the code returns start position 7:
the start-narrowing loop walks past the `(0,0)` special and padding tokens
to the end of the feature.  Index 7 is not a context token and the returned
pair `(7, 4)` covers nothing. -/
theorem labelFeature_last_word_overrun :
    labelFeature 101 5 6 cexFeatC1 = .ok (7, 4) ∧
    cexFeatC1.offsets.get? 3 = some (0, 3) ∧
    cexFeatC1.offsets.get? 4 = some (4, 7) ∧
    cexFeatC1.sequence_ids.get? 4 = some (some 1) ∧
    cexFeatC1.sequence_ids.get? 7 ≠ some (some 1) ∧
    coversSpanB cexFeatC1 7 4 5 6 = false := by
  decide

/-- C1, witness: on the window `wFeatC1` with context `[3, 5]` and answer
`[4, 7)` inside the middle context token, the amended theorem applies and
the label pair is the minimal range (token 4 on both sides). -/
theorem labelFeature_minimal_range_witness :
    (101 ∈ wFeatC1.input_ids) ∧
    (∃ sp ep : Nat,
      labelFeature 101 4 7 wFeatC1 = .ok ((sp : Int), (ep : Int)) ∧
      3 ≤ sp ∧ sp ≤ 5 ∧ (offwC1 sp).1 ≤ 4 ∧
      (∀ k, 3 ≤ k → k ≤ 5 → (offwC1 k).1 ≤ 4 → k ≤ sp) ∧
      3 ≤ ep ∧ ep ≤ 5 ∧ 7 ≤ (offwC1 ep).2 ∧
      (∀ k, 3 ≤ k → k ≤ 5 → 7 ≤ (offwC1 k).2 → ep ≤ k)) :=
  ⟨by decide,
    labelFeature_minimal_range wFeatC1 101 4 7 8 3 5 offwC1 rfl rfl rfl (by decide)
      (by decide) (by decide) (by decide) (by decide) (by decide) (by decide) (by decide)
      (by decide) (by decide) (fun h => absurd h (by decide))⟩

/-- C2. For a Feature whose context window `[tsi, tei]` does not fully
contain the answer span — the first context token starts after `sc`, or the
last context token ends before `ec` — both returned positions equal the
no-answer sentinel: the index `ci` of the first occurrence of the
classification token id in `input_ids`. -/
theorem labelFeature_out_of_window_sentinel
    (f : Feature) (cls sc ec L tsi tei ci : Nat) (off : Nat → Nat × Nat)
    (h1 : f.input_ids.length = L) (h2 : f.sequence_ids.length = L)
    (h3 : f.offsets.length = L)
    (hci : listIndex f.input_ids cls = .ok ci)
    (htei : tei < L) (hts : tsi ≤ tei)
    (hctx : ∀ k, k < L → (f.sequence_ids.get? k = some (some 1) ↔ (tsi ≤ k ∧ k ≤ tei)))
    (hoff : ∀ k, k < L → f.offsets.get? k = some (off k))
    (hout : sc < (off tsi).1 ∨ (off tei).2 < ec) :
    labelFeature cls sc ec f = .ok ((ci : Int), (ci : Int)) := by
  have hfw := ctx_scanForward f L tsi tei h2 htei hts hctx
  have hbw := ctx_scanBackward f L tsi tei h1 h2 htei hts hctx
  have hOS : f.offsets.get? tsi = some (off tsi) := hoff tsi (by omega)
  by_cases hL : sc < (off tsi).1
  · simp only [labelFeature, hci, hfw, hbw, hOS]
    rw [if_pos hL]
  · have hR : (off tei).2 < ec := by
      rcases hout with h | h
      · exact absurd h hL
      · exact h
    have hOE : pyGet f.offsets ((tei : Nat) : Int) = some (off tei) := by
      rw [pyGet_natCast]
      exact hoff tei htei
    simp only [labelFeature, hci, hfw, hbw, hOS, hOE]
    rw [if_neg hL, if_pos hR]

/-- C2, witness: `wFeatC2` has context `[3, 4]` covering characters
`[0, 7)`; the answer `[8, 9)` ends past the window and both labels are the
CLS index 0. -/
theorem labelFeature_out_of_window_sentinel_witness :
    (listIndex wFeatC2.input_ids 101 = .ok 0) ∧ ((offwC2 4).2 < 9) ∧
    labelFeature 101 8 9 wFeatC2 = .ok (((0 : Nat) : Int), ((0 : Nat) : Int)) :=
  ⟨by decide, by decide,
    labelFeature_out_of_window_sentinel wFeatC2 101 8 9 6 3 4 0 offwC2 rfl rfl rfl
      (by decide) (by decide) (by decide) (by decide) (by decide) (Or.inr (by decide))⟩

/-- C3. When a Feature's `input_ids` do not contain the classification
token id, `prepare_train_features_span` fails at the sentinel lookup
(`input_ids.index` raises `ValueError`) and produces no label pair for the
Feature. -/
theorem labelFeature_missing_cls_fails (f : Feature) (cls sc ec : Nat)
    (h : cls ∉ f.input_ids) :
    labelFeature cls sc ec f = .error .valueError := by
  simp [labelFeature, listIndex_not_mem f.input_ids cls h]

/-- C3, witness: a feature without the token id 101. -/
theorem labelFeature_missing_cls_fails_witness :
    (101 ∉ wFeatC3.input_ids) ∧ labelFeature 101 0 1 wFeatC3 = .error .valueError :=
  ⟨by decide, labelFeature_missing_cls_fails wFeatC3 101 0 1 (by decide)⟩

/-- C4 (amended). For a Feature whose answer spans exactly the window —
`sc` is the first context token's char-start and `ec` is the last context
token's char-end — and whose window has at least two context tokens with
strictly increasing char-starts and char-ends, the produced pair is the
whole window `(tsi, tei)`: non-sentinel (both differ from the CLS index,
which lies before the window) and covering the span.  With a single-token
window the unamended claim is false, see
`labelFeature_single_token_window_miss`. -/
theorem labelFeature_window_exact_span
    (f : Feature) (cls sc ec L tsi tei ci : Nat) (off : Nat → Nat × Nat)
    (h1 : f.input_ids.length = L) (h2 : f.sequence_ids.length = L)
    (h3 : f.offsets.length = L)
    (hci : listIndex f.input_ids cls = .ok ci)
    (htei : tei < L) (hts : tsi < tei)
    (hctx : ∀ k, k < L → (f.sequence_ids.get? k = some (some 1) ↔ (tsi ≤ k ∧ k ≤ tei)))
    (hoff : ∀ k, k < L → f.offsets.get? k = some (off k))
    (hmSs : ∀ i, i < L → ∀ j, j < L → tsi ≤ i → i < j → j ≤ tei → (off i).1 < (off j).1)
    (hmEs : ∀ i, i < L → ∀ j, j < L → tsi ≤ i → i < j → j ≤ tei → (off i).2 < (off j).2)
    (hsc : sc = (off tsi).1) (hec : ec = (off tei).2)
    (hcilt : ci < tsi) :
    labelFeature cls sc ec f = .ok ((tsi : Int), (tei : Int)) ∧
    (tsi : Int) ≠ (ci : Int) ∧ (tei : Int) ≠ (ci : Int) ∧
    coversSpanB f (tsi : Int) (tei : Int) sc ec = true := by
  have hcls := listIndex_ok_mem f.input_ids cls ci hci
  have heq : labelFeature cls sc ec f = .ok ((tsi : Int), (tei : Int)) := by
    apply labelFeature_narrow_eq f cls sc ec L tsi tei tsi tei off h1 h2 h3 hcls htei
      (le_of_lt hts) hctx hoff le_rfl (by omega)
    · intro k hk1 hk2
      have hk : k = tsi := le_antisymm hk2 hk1
      subst hk
      omega
    · have := hmSs tsi (by omega) (tsi + 1) (by omega) le_rfl (by omega) (by omega)
      omega
    · exact le_of_lt hts
    · exact le_rfl
    · intro k hk1 hk2
      have hk : k = tei := le_antisymm hk2 hk1
      subst hk
      omega
    · refine ⟨off (tei - 1), ?_, ?_⟩
      · rw [show ((tei : Nat) : Int) - 1 = ((tei - 1 : Nat) : Int) by omega, pyGet_natCast]
        exact hoff (tei - 1) (by omega)
      · have := hmEs (tei - 1) (by omega) tei (by omega) (by omega) (by omega) le_rfl
        omega
  refine ⟨heq, by omega, by omega, ?_⟩
  have hpS : pyGet f.offsets ((tsi : Nat) : Int) = some (off tsi) := by
    rw [pyGet_natCast]
    exact hoff tsi (by omega)
  have hpE : pyGet f.offsets ((tei : Nat) : Int) = some (off tei) := by
    rw [pyGet_natCast]
    exact hoff tei htei
  simp only [coversSpanB, hpS, hpE, Bool.and_eq_true, decide_eq_true_eq]
  refine ⟨⟨?_, ?_⟩, ?_⟩ <;> omega

/-- C4, witness: `wFeatC4` has the two-token context `[3, 4]` with offsets
`(0,3)` and `(4,7)`; the exact window span `[0, 7)` is labeled `(3, 4)`,
non-sentinel and covering. -/
theorem labelFeature_window_exact_span_witness :
    (listIndex wFeatC4.input_ids 101 = .ok 0) ∧
    (labelFeature 101 0 7 wFeatC4 = .ok (((3 : Nat) : Int), ((4 : Nat) : Int)) ∧
      ((3 : Nat) : Int) ≠ ((0 : Nat) : Int) ∧ ((4 : Nat) : Int) ≠ ((0 : Nat) : Int) ∧
      coversSpanB wFeatC4 ((3 : Nat) : Int) ((4 : Nat) : Int) 0 7 = true) :=
  ⟨by decide,
    labelFeature_window_exact_span wFeatC4 101 0 7 7 3 4 0 offwC4 rfl rfl rfl (by decide)
      (by decide) (by decide) (by decide) (by decide) (by decide) (by decide) (by decide)
      (by decide) (by decide)⟩

/-- C4, counterexample to the unamended claim.  `cexFeatC4` has a context
window of one single token `(0, 3)` and the answer `[0, 3)` spans the whole
window exactly, yet the code returns `(5, 3)`: the start-narrowing loop
runs past the `(0,0)` specials and padding to the end of the feature, so
`start_position = 5 > 3 = end_position` and the pair covers nothing (both
positions do differ from the CLS index 0, but no valid covering pair is
produced). -/
theorem labelFeature_single_token_window_miss :
    labelFeature 101 0 3 cexFeatC4 = .ok (5, 3) ∧
    listIndex cexFeatC4.input_ids 101 = .ok 0 ∧
    cexFeatC4.offsets.get? 3 = some (0, 3) ∧
    cexFeatC4.sequence_ids.get? 3 = some (some 1) ∧
    (∀ k, k < 6 → k ≠ 3 → cexFeatC4.sequence_ids.get? k ≠ some (some 1)) ∧
    coversSpanB cexFeatC4 5 3 0 3 = false := by
  decide

/-- C8. For a Feature whose `sequence_ids` contain no context tag
(`some 1`), `prepare_train_features_span` faults and never returns labels:
the forward scan runs off the end of `sequence_ids` (`IndexError`) once the
sentinel lookup has succeeded, and the sentinel lookup itself faults when
the classification token is also missing. -/
theorem labelFeature_empty_context_faults (f : Feature) (cls sc ec : Nat)
    (h : ∀ s ∈ f.sequence_ids, s ≠ some 1) :
    (∃ e, labelFeature cls sc ec f = .error e) ∧
    (cls ∈ f.input_ids → labelFeature cls sc ec f = .error .indexError) := by
  have hscan : scanForward f.sequence_ids = .error .indexError :=
    scanFrom_err f.sequence_ids 0 h
  constructor
  · by_cases hc : cls ∈ f.input_ids
    · obtain ⟨ci, hci⟩ := listIndex_mem _ _ hc
      exact ⟨.indexError, by simp [labelFeature, hci, hscan]⟩
    · exact ⟨.valueError, by simp [labelFeature, listIndex_not_mem _ _ hc]⟩
  · intro hc
    obtain ⟨ci, hci⟩ := listIndex_mem _ _ hc
    simp [labelFeature, hci, hscan]

/-- C8, witness: `wFeatC8` has only a special and a question token. -/
theorem labelFeature_empty_context_faults_witness :
    (∀ s ∈ wFeatC8.sequence_ids, s ≠ some 1) ∧
    ((∃ e, labelFeature 101 0 1 wFeatC8 = .error e) ∧
      (101 ∈ wFeatC8.input_ids → labelFeature 101 0 1 wFeatC8 = .error .indexError)) :=
  ⟨by decide, labelFeature_empty_context_faults wFeatC8 101 0 1 (by decide)⟩

lemma dropWhile_idem {α : Type} (p : α → Bool) :
    ∀ l : List α, (l.dropWhile p).dropWhile p = l.dropWhile p := by
  intro l
  induction l with
  | nil => rfl
  | cons a l ih =>
    by_cases h : p a
    · simp [List.dropWhile_cons, h, ih]
    · simp [List.dropWhile_cons, h]

lemma lstrip_idem (s : String) : lstrip (lstrip s) = lstrip s := by
  simp [lstrip, dropWhile_idem]

lemma map_lstrip_idem (l : List String) : (l.map lstrip).map lstrip = l.map lstrip := by
  induction l with
  | nil => rfl
  | cons a l ih => simp [lstrip_idem, ih]

/-- C9. Both feature builders strip leading whitespace from their text
inputs before tokenization while the character span passes through
unchanged: each builder returns the same output on a batch and on its
pre-left-stripped copy (with `span_start`/`span_end` untouched), so labels
are aligned to the left-stripped story.  Concretely, on `demoEx` (story
`" x y"` with one leading space, span `[1, 2)` naming `"x"` in the original
story), the produced pair `(3, 4)` selects the tokens covering characters
`[0, 3)` of the stripped story — the text `"x y"`, not the original span
text `"x"`. -/
theorem lstrip_alignment :
    (∀ (tok : List String → List String → SpanTokenized) (cls : Nat) (ex : SpanExamples),
      prepare_train_features_span tok cls ex =
        prepare_train_features_span tok cls
          { ex with question := ex.question.map lstrip, story := ex.story.map lstrip }) ∧
    (∀ (tokPair : List String → List String → TokOut) (tokAnswer : List String → TokOut)
        (pad : Int) (ex : S2SExamples),
      prepare_train_features_sequence_to_sequence tokPair tokAnswer pad ex =
        prepare_train_features_sequence_to_sequence tokPair tokAnswer pad
          { question := ex.question.map lstrip, story := ex.story.map lstrip,
            answer := ex.answer.map lstrip }) ∧
    prepare_train_features_span demoTok 101 demoEx = .ok [(3, 4)] ∧
    demoEx.story.get? 0 = some " x y" ∧
    (demoEx.story.map lstrip).get? 0 = some "x y" ∧
    demoEx.span_start = [1] ∧ demoEx.span_end = [2] ∧
    (demoBatch.offset_mapping.get? 0).bind (fun row => row.get? 3) = some (0, 1) ∧
    (demoBatch.offset_mapping.get? 0).bind (fun row => row.get? 4) = some (2, 3) ∧
    sliceStr "x y" 0 3 = "x y" ∧
    sliceStr " x y" 1 2 = "x" ∧
    sliceStr "x y" 0 3 ≠ sliceStr " x y" 1 2 := by
  refine ⟨?_, ?_, by decide, by decide, by decide, by decide, by decide, by decide, by decide,
    by decide, by decide, by decide⟩
  · intro tok cls ex
    simp only [prepare_train_features_span, map_lstrip_idem]
  · intro tokPair tokAnswer pad ex
    simp only [prepare_train_features_sequence_to_sequence, map_lstrip_idem]

/-- C5. The `labels` built by `prepare_train_features_sequence_to_sequence`
have, per Example, the same length as `decoder_input_ids`, and every
position holds `-100` where the decoder id is the padding token and the
decoder id itself elsewhere. -/
theorem seq2seq_labels_mask_padding
    (tokPair : List String → List String → TokOut) (tokAnswer : List String → TokOut)
    (pad : Int) (ex : S2SExamples) :
    (prepare_train_features_sequence_to_sequence tokPair tokAnswer pad ex).labels.length =
      (prepare_train_features_sequence_to_sequence tokPair tokAnswer pad
        ex).decoder_input_ids.length ∧
    (∀ i, ((prepare_train_features_sequence_to_sequence tokPair tokAnswer pad
        ex).labels.get? i).map List.length =
      ((prepare_train_features_sequence_to_sequence tokPair tokAnswer pad
        ex).decoder_input_ids.get? i).map List.length) ∧
    (∀ i j, ((prepare_train_features_sequence_to_sequence tokPair tokAnswer pad
        ex).labels.get? i).bind (fun row => row.get? j) =
      (((prepare_train_features_sequence_to_sequence tokPair tokAnswer pad
        ex).decoder_input_ids.get? i).bind (fun row => row.get? j)).map
        (fun t => if t = pad then -100 else t)) := by
  have hl : (prepare_train_features_sequence_to_sequence tokPair tokAnswer pad ex).labels =
      (prepare_train_features_sequence_to_sequence tokPair tokAnswer pad
        ex).decoder_input_ids.map (List.map (fun t => if t = pad then -100 else t)) := rfl
  refine ⟨?_, ?_, ?_⟩
  · rw [hl, List.length_map]
  · intro i
    rw [hl, List.get?_map]
    rcases (prepare_train_features_sequence_to_sequence tokPair tokAnswer pad
      ex).decoder_input_ids.get? i with _ | row
    · rfl
    · simp
  · intro i j
    rw [hl, List.get?_map]
    rcases (prepare_train_features_sequence_to_sequence tokPair tokAnswer pad
      ex).decoder_input_ids.get? i with _ | row
    · rfl
    · simp [List.get?_map]

/-- C7. `compute_metrics` returns the external F1 scorer applied to the
decoded predictions and the decoded labels, where the labels were first
rewritten pointwise: every `-100` marker replaced by the padding token id
(second conjunct), and decoding stands for
`batch_decode(..., skip_special_tokens=True)`. -/
theorem compute_metrics_decode_mask_pipeline {α : Type}
    (batch_decode : List Int → String) (compute_f1 : List String → List String → α)
    (pad : Int) (pred : Pred) :
    (compute_metrics batch_decode compute_f1 pad pred).1 =
      compute_f1 (pred.predictions.map batch_decode)
        ((maskIgnore pad pred.label_ids).map batch_decode) ∧
    (∀ i j, ((maskIgnore pad pred.label_ids).get? i).bind (fun row => row.get? j) =
      ((pred.label_ids.get? i).bind (fun row => row.get? j)).map
        (fun t => if t = -100 then pad else t)) := by
  refine ⟨rfl, ?_⟩
  intro i j
  simp only [maskIgnore, List.get?_map]
  rcases pred.label_ids.get? i with _ | row
  · rfl
  · simp [List.get?_map]

lemma map_eq_self_mem {α : Type} (g : α → α) :
    ∀ (l : List α), l.map g = l → ∀ x ∈ l, g x = x := by
  intro l
  induction l with
  | nil => intro _ x hx; cases hx
  | cons a l ih =>
    intro h x hx
    rw [List.map_cons] at h
    injection h with h1 h2
    cases hx with
    | head => exact h1
    | tail _ hx2 => exact ih h2 x hx2

/-- C10. `compute_metrics` hands back a prediction object whose
`label_ids` are the masked array (every `-100` overwritten with the padding
id) — the in-place numpy mutation — with `predictions` untouched; when some
entry is `-100` and the padding id differs from `-100`, the object has
really changed. -/
theorem compute_metrics_mutates_label_ids {α : Type}
    (batch_decode : List Int → String) (compute_f1 : List String → List String → α)
    (pad : Int) (pred : Pred)
    (hpad : pad ≠ -100)
    (hneg : ∃ row ∈ pred.label_ids, (-100 : Int) ∈ row) :
    (compute_metrics batch_decode compute_f1 pad pred).2.label_ids =
      maskIgnore pad pred.label_ids ∧
    (compute_metrics batch_decode compute_f1 pad pred).2.predictions = pred.predictions ∧
    (compute_metrics batch_decode compute_f1 pad pred).2.label_ids ≠ pred.label_ids := by
  refine ⟨rfl, rfl, ?_⟩
  intro hcon
  obtain ⟨row, hrow, hm⟩ := hneg
  have hcon2 : pred.label_ids.map
      (fun row => row.map (fun t => if t = -100 then pad else t)) = pred.label_ids := hcon
  have h1 := map_eq_self_mem _ _ hcon2 row hrow
  have h2 := map_eq_self_mem _ _ h1 (-100) hm
  simp at h2
  exact hpad h2

/-- C10, witness: one `-100` entry, padding id 0. -/
theorem compute_metrics_mutates_label_ids_witness :
    ((0 : Int) ≠ -100) ∧
    (∃ row ∈ ([[-100]] : List (List Int)), (-100 : Int) ∈ row) ∧
    ((compute_metrics (fun _ => "") (fun _ _ => (0 : Nat)) 0
        { label_ids := [[-100]], predictions := [[42]] }).2.label_ids =
      maskIgnore 0 [[-100]] ∧
    (compute_metrics (fun _ => "") (fun _ _ => (0 : Nat)) 0
        { label_ids := [[-100]], predictions := [[42]] }).2.predictions = [[42]] ∧
    (compute_metrics (fun _ => "") (fun _ _ => (0 : Nat)) 0
        { label_ids := [[-100]], predictions := [[42]] }).2.label_ids ≠ [[-100]]) :=
  ⟨by decide, ⟨[-100], by decide, by decide⟩,
    compute_metrics_mutates_label_ids (fun _ => "") (fun _ _ => (0 : Nat)) 0
      { label_ids := [[-100]], predictions := [[42]] } (by decide)
      ⟨[-100], by decide, by decide⟩⟩

lemma lookupFile_cons_isSome (fs : List (String × String)) (x : String × String) (p : String)
    (h : (lookupFile fs p).isSome = true) : (lookupFile (x :: fs) p).isSome = true := by
  rcases x with ⟨q, c⟩
  by_cases hq : q = p <;> simp [lookupFile, hq, h]

lemma os_path_join_ne (a b : String) (hb : 0 < b.length) : os_path_join a b ≠ a := by
  unfold os_path_join
  split_ifs with h1 h2
  · intro hc
    subst h1
    rw [hc] at hb
    exact absurd hb (by decide)
  · intro hc
    have hlen := congrArg String.length hc
    rw [String.length_append] at hlen
    omega
  · intro hc
    have hlen := congrArg String.length hc
    rw [String.length_append, String.length_append] at hlen
    have hslash : ("/" : String).length = 1 := by decide
    omega

lemma osPathExists_cons (w : World) (y : String × String) (x : String)
    (h : osPathExists w x = true) :
    osPathExists { w with files := y :: w.files } x = true := by
  simp only [osPathExists] at h ⊢
  cases hiso : (lookupFile w.files x).isSome
  · rw [hiso] at h
    simp at h
    simp [h]
  · simp [lookupFile_cons_isSome w.files y x hiso]

lemma download_data_unfold (w : World) (dp url sfx : String) :
    download_data w dp url sfx =
      if osPathExists (if osPathExists w dp then w else os_makedirs w dp)
          (os_path_join dp (sfx ++ ".json")) then
        ((if osPathExists w dp then w else os_makedirs w dp), 0)
      else
        download_url (if osPathExists w dp then w else os_makedirs w dp) url
          (os_path_join dp (sfx ++ ".json")) := rfl

/-- C6. `download_data` transfers over the network exactly when the file
`<data_path>/<suffix>.json` is absent (provided no directory occupies that
path); when the file is present it makes zero transfers and leaves the
files untouched; a second invocation right after any invocation is a no-op
returning the same world with zero transfers; and the directory
`data_path` is created when it was absent. -/
theorem download_data_idempotent_and_guarded (w : World) (data_path url_path suffix : String)
    (hnd : os_path_join data_path (suffix ++ ".json") ∉ w.dirs) :
    (((download_data w data_path url_path suffix).2 = 1) ↔
      lookupFile w.files (os_path_join data_path (suffix ++ ".json")) = none) ∧
    (lookupFile w.files (os_path_join data_path (suffix ++ ".json")) ≠ none →
      (download_data w data_path url_path suffix).2 = 0 ∧
      (download_data w data_path url_path suffix).1.files = w.files) ∧
    (download_data (download_data w data_path url_path suffix).1 data_path url_path suffix =
      ((download_data w data_path url_path suffix).1, 0)) ∧
    (osPathExists w data_path = false →
      data_path ∈ (download_data w data_path url_path suffix).1.dirs) := by
  have hpne : os_path_join data_path (suffix ++ ".json") ≠ data_path := by
    apply os_path_join_ne
    rw [String.length_append]
    have hjson : (".json" : String).length = 5 := by decide
    omega
  rcases hlook : lookupFile w.files (os_path_join data_path (suffix ++ ".json")) with _ | c
  all_goals by_cases hdp : osPathExists w data_path = true
  -- file absent, data_path exists
  · have hw1 : (if osPathExists w data_path then w else os_makedirs w data_path) = w :=
      if_pos hdp
    have hexp : osPathExists w (os_path_join data_path (suffix ++ ".json")) = false := by
      simp [osPathExists, hlook, hnd]
    have hdd : download_data w data_path url_path suffix =
        ({ w with files := ((os_path_join data_path (suffix ++ ".json")), w.net url_path) ::
          w.files }, 1) := by
      rw [download_data_unfold, hw1, if_neg (by simp [hexp]), download_url]
    rw [hdd]
    refine ⟨by simp, fun h => absurd rfl h, ?_, ?_⟩
    · have hdpW : osPathExists { w with files :=
          ((os_path_join data_path (suffix ++ ".json")), w.net url_path) :: w.files }
          data_path = true := osPathExists_cons w _ _ hdp
      have hexpW : osPathExists { w with files :=
          ((os_path_join data_path (suffix ++ ".json")), w.net url_path) :: w.files }
          (os_path_join data_path (suffix ++ ".json")) = true := by
        simp [osPathExists, lookupFile]
      rw [download_data_unfold, if_pos hdpW, if_pos hexpW]
    · intro hcon
      simp [hdp] at hcon
  -- file absent, data_path absent
  · have hw1 : (if osPathExists w data_path then w else os_makedirs w data_path) =
        os_makedirs w data_path := if_neg hdp
    have hexp : osPathExists (os_makedirs w data_path)
        (os_path_join data_path (suffix ++ ".json")) = false := by
      simp [osPathExists, os_makedirs, hlook, List.mem_cons, hpne, hnd]
    have hdd : download_data w data_path url_path suffix =
        ({ os_makedirs w data_path with files :=
          ((os_path_join data_path (suffix ++ ".json")),
            (os_makedirs w data_path).net url_path) ::
          (os_makedirs w data_path).files }, 1) := by
      rw [download_data_unfold, hw1, if_neg (by simp [hexp]), download_url]
    rw [hdd]
    refine ⟨by simp, fun h => absurd rfl h, ?_, ?_⟩
    · have hdpW : osPathExists { os_makedirs w data_path with files :=
          ((os_path_join data_path (suffix ++ ".json")),
            (os_makedirs w data_path).net url_path) :: (os_makedirs w data_path).files }
          data_path = true := by
        simp [osPathExists, os_makedirs]
      have hexpW : osPathExists { os_makedirs w data_path with files :=
          ((os_path_join data_path (suffix ++ ".json")),
            (os_makedirs w data_path).net url_path) :: (os_makedirs w data_path).files }
          (os_path_join data_path (suffix ++ ".json")) = true := by
        simp [osPathExists, lookupFile]
      rw [download_data_unfold, if_pos hdpW, if_pos hexpW]
    · intro _
      simp [os_makedirs]
  -- file present, data_path exists
  · have hw1 : (if osPathExists w data_path then w else os_makedirs w data_path) = w :=
      if_pos hdp
    have hexp : osPathExists w (os_path_join data_path (suffix ++ ".json")) = true := by
      simp [osPathExists, hlook]
    have hdd : download_data w data_path url_path suffix = (w, 0) := by
      rw [download_data_unfold, hw1, if_pos hexp]
    rw [hdd]
    refine ⟨by simp [hlook], fun _ => ⟨rfl, rfl⟩, ?_, ?_⟩
    · rw [download_data_unfold, if_pos hdp, if_pos hexp]
    · intro hcon
      simp [hdp] at hcon
  -- file present, data_path absent
  · have hw1 : (if osPathExists w data_path then w else os_makedirs w data_path) =
        os_makedirs w data_path := if_neg hdp
    have hexp : osPathExists (os_makedirs w data_path)
        (os_path_join data_path (suffix ++ ".json")) = true := by
      simp [osPathExists, os_makedirs, hlook]
    have hdd : download_data w data_path url_path suffix = (os_makedirs w data_path, 0) := by
      rw [download_data_unfold, hw1, if_pos hexp]
    rw [hdd]
    refine ⟨by simp [hlook], fun _ => ⟨rfl, rfl⟩, ?_, ?_⟩
    · have hdpW : osPathExists (os_makedirs w data_path) data_path = true := by
        simp [osPathExists, os_makedirs]
      rw [download_data_unfold, if_pos hdpW, if_pos hexp]
    · intro _
      simp [os_makedirs]

/-- C6, witness: an empty world; downloading split `"s"` into directory
`"d"` performs one transfer, creates the directory, and a repeat is a
no-op. -/
theorem download_data_idempotent_and_guarded_witness :
    (os_path_join "d" ("s" ++ ".json") ∉ wDemo.dirs) ∧
    ((((download_data wDemo "d" "u" "s").2 = 1) ↔
      lookupFile wDemo.files (os_path_join "d" ("s" ++ ".json")) = none) ∧
    (lookupFile wDemo.files (os_path_join "d" ("s" ++ ".json")) ≠ none →
      (download_data wDemo "d" "u" "s").2 = 0 ∧
      (download_data wDemo "d" "u" "s").1.files = wDemo.files) ∧
    (download_data (download_data wDemo "d" "u" "s").1 "d" "u" "s" =
      ((download_data wDemo "d" "u" "s").1, 0)) ∧
    (osPathExists wDemo "d" = false →
      "d" ∈ (download_data wDemo "d" "u" "s").1.dirs)) :=
  ⟨by decide, download_data_idempotent_and_guarded wDemo "d" "u" "s" (by decide)⟩

end CoqaQA
